import Mathlib

/-!
Shallow embedding of `src/mtcnn/network/matcnn_pytorch.py` (MTCNN face
detector networks and their multi-task training losses).

Modelling conventions:
* Tensors are total functions: an image/feature map is `ℕ → ℕ → ℕ → ℝ`
  (channel, row, column); a flattened feature vector is `ℕ → ℝ`.
* Per-sample ground-truth labels are the integer sentinels `-2`, `0`, `1`
  (the code only ever compares them with `0` and `-2`), so they are
  modelled as `ℤ`; predictions and regression targets are `ℝ`.
* A batch is a `List`; reshaping `view(-1, k)` becomes a list of
  per-sample rows.
* Fallible Python behaviour is `Except PyErr`: `AssertionError` raised by
  `get_loss` in eval mode, and `AttributeError` for accessing attributes
  that `__init__` never created when `is_train=False`.
* `nn.BCELoss` / `nn.MSELoss` (mean reduction) are written out as their
  defining formulas over the gathered lists.
-/

namespace MTCNN

/-- Python-level failures relevant to this module: the `AssertionError`
raised by `get_loss` when `is_train` is false, and the `AttributeError`
raised when a loss method touches an attribute that `__init__` only
creates in training mode. -/
inductive PyErr where
  | assertionError
  | attributeError
deriving DecidableEq

/-- A (single-sample) image or feature map: channel, row, column → value. -/
abbrev Image : Type := ℕ → ℕ → ℕ → ℝ

/-- A flattened feature vector. -/
abbrev Vec : Type := ℕ → ℝ

/-- The all-zero image. -/
def zeroImage : Image := fun _ _ _ => 0

/-- Logistic sigmoid, the activation of each `nn.Sigmoid` layer. -/
noncomputable def sigmoid (t : ℝ) : ℝ := 1 / (1 + Real.exp (-t))

/-- `nn.Conv2d(inC, outC, kernel_size=k, stride=s)` on a single sample:
output channel `o` at `(i, j)` is the bias plus the windowed dot product
with the kernel. -/
noncomputable def conv2d (inC k s : ℕ) (w : ℕ → ℕ → ℕ → ℕ → ℝ) (b : ℕ → ℝ)
    (x : Image) : Image :=
  fun o i j =>
    b o + ∑ c ∈ Finset.range inC, ∑ u ∈ Finset.range k, ∑ v ∈ Finset.range k,
      w o c u v * x c (s * i + u) (s * j + v)

/-- `nn.PReLU()` on a feature map: identity on nonnegatives, slope `a`
on negatives. -/
noncomputable def prelu (a : ℝ) (x : Image) : Image :=
  fun c i j => if 0 ≤ x c i j then x c i j else a * x c i j

/-- Maximum of one row of a pooling window. -/
noncomputable def rowMax (x : Image) (c bi bj k : ℕ) : ℝ :=
  ((List.range k).map (fun v => x c bi (bj + v))).foldl max (x c bi bj)

/-- `nn.MaxPool2d(kernel_size=k, stride=s)`: maximum over the `k × k`
window (as the maximum of the row maxima). -/
noncomputable def maxpool2d (k s : ℕ) (x : Image) : Image :=
  fun c i j =>
    ((List.range k).map (fun u => rowMax x c (s * i + u) (s * j) k)).foldl max
      (rowMax x c (s * i) (s * j) k)

/-- `nn.Linear(inDim, _)` on a flattened vector. -/
noncomputable def linearV (inDim : ℕ) (w : ℕ → ℕ → ℝ) (b : ℕ → ℝ) (v : Vec) : Vec :=
  fun o => b o + ∑ i ∈ Finset.range inDim, w o i * v i

/-- `nn.PReLU()` on a flattened vector. -/
noncomputable def preluV (a : ℝ) (v : Vec) : Vec :=
  fun i => if 0 ≤ v i then v i else a * v i

/-- `x.view(x.size(0), -1)` for one sample of an `h × w` spatial map:
index `j` addresses channel `j / (h*w)`, row `(j % (h*w)) / w`,
column `j % w`. -/
def flattenImage (h w : ℕ) (x : Image) : Vec :=
  fun j => x (j / (h * w)) (j % (h * w) / w) (j % w)

/-- Parameters of one `nn.Conv2d` layer. -/
structure ConvParams where
  w : ℕ → ℕ → ℕ → ℕ → ℝ
  b : ℕ → ℝ

/-- Parameters of one `nn.Linear` layer. -/
structure LinParams where
  w : ℕ → ℕ → ℝ
  b : ℕ → ℝ

/-- The all-zero convolution parameters. -/
def zeroConv : ConvParams := ⟨fun _ _ _ _ => 0, fun _ => 0⟩

/-- Parameters of `PNet`: three body convolutions with PReLU slopes and
the three `1 × 1` head convolutions. -/
structure PNetParams where
  conv1 : ConvParams
  prelu1 : ℝ
  conv2 : ConvParams
  prelu2 : ℝ
  conv3 : ConvParams
  prelu3 : ℝ
  clsConv : ConvParams
  boxConv : ConvParams
  landConv : ConvParams

/-- `PNet.body`: conv(3→10,k3) → PReLU → maxpool(2,2) → conv(10→16,k3)
→ PReLU → conv(16→32,k3) → PReLU. -/
noncomputable def pnetBody (p : PNetParams) (x : Image) : Image :=
  prelu p.prelu3 (conv2d 16 3 1 p.conv3.w p.conv3.b
    (prelu p.prelu2 (conv2d 10 3 1 p.conv2.w p.conv2.b
      (maxpool2d 2 2 (prelu p.prelu1 (conv2d 3 3 1 p.conv1.w p.conv1.b x))))))

/-- `PNet.forward`: the classification head is a `1 × 1` convolution
followed by `nn.Sigmoid`; box and landmark heads are bare `1 × 1`
convolutions. -/
noncomputable def pnetForward (p : PNetParams) (x : Image) : Image × Image × Image :=
  (fun c i j => sigmoid (conv2d 32 1 1 p.clsConv.w p.clsConv.b (pnetBody p x) c i j),
   conv2d 32 1 1 p.boxConv.w p.boxConv.b (pnetBody p x),
   conv2d 32 1 1 p.landConv.w p.landConv.b (pnetBody p x))

/-- Parameters of `RNet`. -/
structure RNetParams where
  conv1 : ConvParams
  prelu1 : ℝ
  conv2 : ConvParams
  prelu2 : ℝ
  conv3 : ConvParams
  prelu3 : ℝ
  fc : LinParams
  fcPrelu : ℝ
  clsFc : LinParams
  boxFc : LinParams
  landFc : LinParams

/-- `RNet.body`: conv(3→28,k3) → PReLU → maxpool(3,2) → conv(28→48,k3)
→ PReLU → maxpool(3,2) → conv(48→64,k2) → PReLU. -/
noncomputable def rnetBody (p : RNetParams) (x : Image) : Image :=
  prelu p.prelu3 (conv2d 48 2 1 p.conv3.w p.conv3.b
    (maxpool2d 3 2 (prelu p.prelu2 (conv2d 28 3 1 p.conv2.w p.conv2.b
      (maxpool2d 3 2 (prelu p.prelu1 (conv2d 3 3 1 p.conv1.w p.conv1.b x)))))))

/-- `RNet.forward` on one sample: flatten the `64 × 2 × 2` body output,
apply the fully-connected stage `Linear(256,128) → PReLU`, then the
heads; classification is `Linear(128,1) → Sigmoid`. -/
noncomputable def rnetForward (p : RNetParams) (x : Image) : Vec × Vec × Vec :=
  (fun o => sigmoid (linearV 128 p.clsFc.w p.clsFc.b
      (preluV p.fcPrelu (linearV 256 p.fc.w p.fc.b (flattenImage 2 2 (rnetBody p x)))) o),
   linearV 128 p.boxFc.w p.boxFc.b
      (preluV p.fcPrelu (linearV 256 p.fc.w p.fc.b (flattenImage 2 2 (rnetBody p x)))),
   linearV 128 p.landFc.w p.landFc.b
      (preluV p.fcPrelu (linearV 256 p.fc.w p.fc.b (flattenImage 2 2 (rnetBody p x)))))

/-- Parameters of `ONet`. -/
structure ONetParams where
  conv1 : ConvParams
  prelu1 : ℝ
  conv2 : ConvParams
  prelu2 : ℝ
  conv3 : ConvParams
  prelu3 : ℝ
  conv4 : ConvParams
  prelu4 : ℝ
  fc : LinParams
  fcPrelu : ℝ
  clsFc : LinParams
  boxFc : LinParams
  landFc : LinParams

/-- `ONet.body`: conv(3→32,k3) → PReLU → maxpool(3,2) → conv(32→64,k3)
→ PReLU → maxpool(3,2) → conv(64→64,k3) → PReLU → maxpool(2,2)
→ conv(64→128,k2) → PReLU. -/
noncomputable def onetBody (p : ONetParams) (x : Image) : Image :=
  prelu p.prelu4 (conv2d 64 2 1 p.conv4.w p.conv4.b
    (maxpool2d 2 2 (prelu p.prelu3 (conv2d 64 3 1 p.conv3.w p.conv3.b
      (maxpool2d 3 2 (prelu p.prelu2 (conv2d 32 3 1 p.conv2.w p.conv2.b
        (maxpool2d 3 2 (prelu p.prelu1 (conv2d 3 3 1 p.conv1.w p.conv1.b x))))))))))

/-- `ONet.forward` on one sample: flatten the `128 × 2 × 2` body output,
apply `Linear(512,256) → PReLU`, then the heads; classification is
`Linear(256,1) → Sigmoid`. -/
noncomputable def onetForward (p : ONetParams) (x : Image) : Vec × Vec × Vec :=
  (fun o => sigmoid (linearV 256 p.clsFc.w p.clsFc.b
      (preluV p.fcPrelu (linearV 512 p.fc.w p.fc.b (flattenImage 2 2 (onetBody p x)))) o),
   linearV 256 p.boxFc.w p.boxFc.b
      (preluV p.fcPrelu (linearV 512 p.fc.w p.fc.b (flattenImage 2 2 (onetBody p x)))),
   linearV 256 p.landFc.w p.landFc.b
      (preluV p.fcPrelu (linearV 512 p.fc.w p.fc.b (flattenImage 2 2 (onetBody p x)))))

/-- `PNet.forward` followed by `get_loss`'s reshapes, for a batch of
`12 × 12` inputs (for which `PNet`'s output map is `1 × 1`):
`pred_label.view(-1, 1)` is the list of scalar scores,
`pred_offset.view(-1, 4)` the list of 4-value rows,
`pred_landmarks.view(-1, 10)` the list of 10-value rows. -/
noncomputable def pnetForwardFlat (p : PNetParams) (xs : List Image) :
    List ℝ × List (List ℝ) × List (List ℝ) :=
  (xs.map (fun x => (pnetForward p x).1 0 0 0),
   xs.map (fun x => (List.range 4).map (fun c => (pnetForward p x).2.1 c 0 0)),
   xs.map (fun x => (List.range 10).map (fun c => (pnetForward p x).2.2 c 0 0)))

/-- `torch.ge(gt_label, 0)`: the boolean mask of `cls_loss`. -/
def clsMask (labels : List ℤ) : List Bool :=
  labels.map (fun l => decide (0 ≤ l))

/-- `torch.eq(torch.eq(gt_label, 0), 0)`: the boolean mask of `box_loss`
(true exactly on labels that are not `0`). -/
def boxMask (labels : List ℤ) : List Bool :=
  labels.map (fun l => !(decide (l = 0)))

/-- `torch.eq(gt_label, -2)`: the boolean mask of `landmark_loss`. -/
def landMask (labels : List ℤ) : List Bool :=
  labels.map (fun l => decide (l = -2))

/-- `torch.masked_select(xs, mask)`: keep the entries at mask-true
positions, in order. -/
def maskedSelect {α : Type} : List α → List Bool → List α
  | [], _ => []
  | _ :: _, [] => []
  | x :: xs, b :: bs => if b then x :: maskedSelect xs bs else maskedSelect xs bs

/-- `torch.nonzero(mask)` (then squeezed): the ascending list of indices
at which the mask is true. -/
def nonzeroIdx (mask : List Bool) : List ℕ :=
  (List.range mask.length).filter (fun i => mask.getD i false)

/-- Row gathering `t[chose_index, :]`. -/
def gatherRows (rows : List (List ℝ)) (idx : List ℕ) : List (List ℝ) :=
  idx.map (fun i => rows.getD i [])

/-- `nn.BCELoss()` (mean reduction): mean of
`-(y * log p + (1 - y) * log (1 - p))` over the paired entries. -/
noncomputable def bce (pred target : List ℝ) : ℝ :=
  -(((pred.zip target).map
      (fun pt => pt.2 * Real.log pt.1 + (1 - pt.2) * Real.log (1 - pt.1))).sum)
    / ((pred.zip target).length : ℝ)

/-- Sum of squared differences of one row pair. -/
def sqDiffRow (p g : List ℝ) : ℝ :=
  ((p.zip g).map (fun ab => (ab.1 - ab.2) ^ 2)).sum

/-- `nn.MSELoss()` (mean reduction) over lists of rows: sum of squared
differences divided by the number of paired scalar entries. -/
noncomputable def mse (pred target : List (List ℝ)) : ℝ :=
  (((pred.zip target).map (fun pg => sqDiffRow pg.1 pg.2)).sum)
    / ((((pred.zip target).map (fun pg => (pg.1.zip pg.2).length)).sum : ℕ) : ℝ)

/-- Body of `_Net.cls_loss` after the squeezes: mask `gt_label ≥ 0`,
masked-select both tensors, binary cross-entropy on the gathered subset,
scaled by `self.cls_factor` (passed here as `f`). -/
noncomputable def cls_loss_val (f : ℝ) (gt_label : List ℤ) (pred_label : List ℝ) : ℝ :=
  bce (maskedSelect pred_label (clsMask gt_label))
      ((maskedSelect gt_label (clsMask gt_label)).map (fun z => (z : ℝ))) * f

/-- Body of `_Net.box_loss` after the squeezes: mask `gt_label ≠ 0`,
gather the offset rows at the chosen indices, mean-squared error on the
gathered subset, scaled by `self.box_factor` (passed here as `f`). -/
noncomputable def box_loss_val (f : ℝ) (gt_label : List ℤ)
    (gt_offset pred_offset : List (List ℝ)) : ℝ :=
  mse (gatherRows pred_offset (nonzeroIdx (boxMask gt_label)))
      (gatherRows gt_offset (nonzeroIdx (boxMask gt_label))) * f

/-- Body of `_Net.landmark_loss` after the squeezes: mask `gt_label = -2`,
gather the landmark rows at the chosen indices, mean-squared error on the
gathered subset, scaled by `self.land_factor` (passed here as `f`). -/
noncomputable def landmark_loss_val (f : ℝ) (gt_label : List ℤ)
    (gt_landmark pred_landmark : List (List ℝ)) : ℝ :=
  mse (gatherRows pred_landmark (nonzeroIdx (landMask gt_label)))
      (gatherRows gt_landmark (nonzeroIdx (landMask gt_label))) * f

/-- State of a `_Net` instance as left by `_Net.__init__`: the
`is_train` flag is always stored; the three weighting factors and the
three loss sub-objects (`nn.BCELoss` / `nn.MSELoss`, modelled as mere
presence tokens) exist only when constructed in training mode, hence
`Option`. `forward` is the concrete subclass's forward pass, composed
with `get_loss`'s `view` reshapes (a batch of images to flattened
per-sample predictions). -/
structure NetState where
  is_train : Bool
  cls_factor : Option ℝ
  box_factor : Option ℝ
  land_factor : Option ℝ
  loss_cls : Option Unit
  loss_box : Option Unit
  loss_landmark : Option Unit
  forward : List Image → List ℝ × List (List ℝ) × List (List ℝ)

/-- Python attribute access: `AttributeError` when the attribute was
never created. -/
def lookupAttr {α : Type} : Option α → Except PyErr α
  | some a => Except.ok a
  | none => Except.error PyErr.attributeError

/-- `_Net.cls_loss`: the masking and gathering need no attributes; the
call `self.loss_cls(...)` and the factor `self.cls_factor` do, so on an
eval-mode instance this raises `AttributeError`. -/
noncomputable def cls_loss (net : NetState) (gt_label : List ℤ)
    (pred_label : List ℝ) : Except PyErr ℝ := do
  let _ ← lookupAttr net.loss_cls
  let f ← lookupAttr net.cls_factor
  pure (cls_loss_val f gt_label pred_label)

/-- `_Net.box_loss`: as `cls_loss`, using `self.loss_box` and
`self.box_factor`. -/
noncomputable def box_loss (net : NetState) (gt_label : List ℤ)
    (gt_offset pred_offset : List (List ℝ)) : Except PyErr ℝ := do
  let _ ← lookupAttr net.loss_box
  let f ← lookupAttr net.box_factor
  pure (box_loss_val f gt_label gt_offset pred_offset)

/-- `_Net.landmark_loss`: as `cls_loss`, using `self.loss_landmark` and
`self.land_factor`. -/
noncomputable def landmark_loss (net : NetState) (gt_label : List ℤ)
    (gt_landmark pred_landmark : List (List ℝ)) : Except PyErr ℝ := do
  let _ ← lookupAttr net.loss_landmark
  let f ← lookupAttr net.land_factor
  pure (landmark_loss_val f gt_label gt_landmark pred_landmark)

/-- `_Net.get_loss`: raise `AssertionError` unless `is_train`; otherwise
run the forward pass, reshape, call the `cls_loss` and `box_loss`
methods, and return `cls_loss * self.cls_factor + box_loss *
self.box_factor`. The `gt_landmarks` argument and the reshaped
`pred_landmarks` are never used, and `landmark_loss` is never called. -/
noncomputable def get_loss (net : NetState) (x : List Image) (gt_label : List ℤ)
    (gt_boxes gt_landmarks : List (List ℝ)) : Except PyErr ℝ :=
  match net.is_train with
  | false => Except.error PyErr.assertionError
  | true => do
      let c ← cls_loss net gt_label (net.forward x).1
      let b ← box_loss net gt_label gt_boxes (net.forward x).2.1
      let cf ← lookupAttr net.cls_factor
      let bf ← lookupAttr net.box_factor
      pure (c * cf + b * bf)

/-- The classification summand of `get_loss`'s returned scalar:
the `cls_loss` method's value times `self.cls_factor` once more. -/
noncomputable def cls_term (cf : ℝ) (gt_label : List ℤ) (pred_label : List ℝ) : ℝ :=
  cls_loss_val cf gt_label pred_label * cf

/-- The box-regression summand of `get_loss`'s returned scalar:
the `box_loss` method's value times `self.box_factor` once more. -/
noncomputable def box_term (bf : ℝ) (gt_label : List ℤ)
    (gt_offset pred_offset : List (List ℝ)) : ℝ :=
  box_loss_val bf gt_label gt_offset pred_offset * bf

/-- `_Net.__init__(cls_factor, box_factor, landmark_factor, is_train,
device)`: store `is_train`; create the factor attributes and the three
loss sub-objects only when `is_train` is true. (`self.apply(weights_init)`,
`self.to(device)` and the eval-mode switch mutate layer parameters and
device placement, which the loss-level state does not carry.) -/
def mkNet (cls_factor box_factor landmark_factor : ℝ) (is_train : Bool)
    (fwd : List Image → List ℝ × List (List ℝ) × List (List ℝ)) : NetState :=
  { is_train := is_train
    cls_factor := if is_train then some cls_factor else none
    box_factor := if is_train then some box_factor else none
    land_factor := if is_train then some landmark_factor else none
    loss_cls := if is_train then some () else none
    loss_box := if is_train then some () else none
    loss_landmark := if is_train then some () else none
    forward := fwd }

/-- All-zero `PNet` parameters (a concrete, reachable parameter setting:
the claims quantify over all fixed parameter values). -/
def pnetZeroParams : PNetParams :=
  ⟨zeroConv, 0, zeroConv, 0, zeroConv, 0, zeroConv, zeroConv, zeroConv⟩

/-- A concrete training-mode net: `PNet(is_train=True)`'s loss state
(`param = [1, 0.5, 0.5]`) with all-zero parameters. -/
noncomputable def pnetTrainZero : NetState :=
  mkNet 1 (1 / 2) (1 / 2) true (pnetForwardFlat pnetZeroParams)

/-- The three network variants (cascade stages). -/
inductive Variant where
  | pnet
  | rnet
  | onet
deriving DecidableEq, Fintype

/-- Kinds of leaf modules appearing in the three networks. -/
inductive LayerKind where
  | conv2d
  | linear
  | prelu
  | maxpool2d
  | sigmoid
deriving DecidableEq

/-- Initialization state of one leaf module. `bias` is `some 0.1` once
`weights_init` has set the bias constant (`none` models the PyTorch
default initialization it replaces); `xavierInits` counts how many times
`nn.init.xavier_uniform` has redrawn the weight (the drawn values
themselves are external randomness, so only the draw count is modelled). -/
structure LayerState where
  kind : LayerKind
  bias : Option ℚ
  xavierInits : ℕ
deriving DecidableEq

/-- A freshly constructed module, before any `weights_init`. -/
def freshLayer (k : LayerKind) : LayerState := ⟨k, none, 0⟩

/-- `weights_init(m)`: on `nn.Conv2d` and `nn.Linear` modules, redraw the
weight with `nn.init.xavier_uniform` and set the bias to the constant
`0.1`; leave every other module untouched. -/
def weights_init (l : LayerState) : LayerState :=
  if l.kind = LayerKind.conv2d ∨ l.kind = LayerKind.linear then
    { l with bias := some (mkRat 1 10), xavierInits := l.xavierInits + 1 }
  else l

/-- Leaf modules of `PNet._init_net`, in construction order: body
(conv, PReLU, maxpool, conv, PReLU, conv, PReLU), cls head
(conv, Sigmoid), box head (conv), landmark head (conv). -/
def pnetKinds : List LayerKind :=
  [LayerKind.conv2d, LayerKind.prelu, LayerKind.maxpool2d, LayerKind.conv2d,
   LayerKind.prelu, LayerKind.conv2d, LayerKind.prelu,
   LayerKind.conv2d, LayerKind.sigmoid, LayerKind.conv2d, LayerKind.conv2d]

/-- Leaf modules of `RNet._init_net`: body (conv, PReLU, maxpool, conv,
PReLU, maxpool, conv, PReLU), fc (Linear, PReLU), cls head
(Linear, Sigmoid), box head (Linear), landmark head (Linear). -/
def rnetKinds : List LayerKind :=
  [LayerKind.conv2d, LayerKind.prelu, LayerKind.maxpool2d, LayerKind.conv2d,
   LayerKind.prelu, LayerKind.maxpool2d, LayerKind.conv2d, LayerKind.prelu,
   LayerKind.linear, LayerKind.prelu,
   LayerKind.linear, LayerKind.sigmoid, LayerKind.linear, LayerKind.linear]

/-- Leaf modules of `ONet._init_net`: body (conv, PReLU, maxpool, conv,
PReLU, maxpool, conv, PReLU, maxpool, conv, PReLU), fc (Linear, PReLU),
cls head (Linear, Sigmoid), box head (Linear), landmark head (Linear). -/
def onetKinds : List LayerKind :=
  [LayerKind.conv2d, LayerKind.prelu, LayerKind.maxpool2d, LayerKind.conv2d,
   LayerKind.prelu, LayerKind.maxpool2d, LayerKind.conv2d, LayerKind.prelu,
   LayerKind.maxpool2d, LayerKind.conv2d, LayerKind.prelu,
   LayerKind.linear, LayerKind.prelu,
   LayerKind.linear, LayerKind.sigmoid, LayerKind.linear, LayerKind.linear]

/-- `self.apply(weights_init)`: apply the initializer to every leaf
module. -/
def applyWeightsInit (ls : List LayerState) : List LayerState :=
  ls.map weights_init

/-- `_init_net` per variant: build the fresh layer graph; `ONet._init_net`
additionally ends with a `self.apply(weights_init)` of its own. -/
def initNetLayers : Variant → List LayerState
  | Variant.pnet => pnetKinds.map freshLayer
  | Variant.rnet => rnetKinds.map freshLayer
  | Variant.onet => applyWeightsInit (onetKinds.map freshLayer)

/-- Layer states after `_Net.__init__` finishes: `self._init_net()`
followed by the base class's `self.apply(weights_init)`. (The training
branch, device move and eval switch do not touch layer parameters.) -/
def constructLayers (v : Variant) : List LayerState :=
  applyWeightsInit (initNetLayers v)

/-! ### Helper lemmas -/

theorem sigmoid_nonneg (t : ℝ) : 0 ≤ sigmoid t := by
  have h : (0 : ℝ) < 1 + Real.exp (-t) := by positivity
  exact div_nonneg zero_le_one h.le

theorem sigmoid_le_one (t : ℝ) : sigmoid t ≤ 1 := by
  have h : (0 : ℝ) < 1 + Real.exp (-t) := by positivity
  have h1 : (1 : ℝ) ≤ 1 + Real.exp (-t) := by
    have := Real.exp_pos (-t)
    linarith
  exact (div_le_one h).mpr h1

theorem sigmoid_zero : sigmoid 0 = 1 / 2 := by
  simp [sigmoid, Real.exp_zero]
  norm_num

theorem foldl_max_zero (l : List ℕ) :
    (l.map (fun _ => (0 : ℝ))).foldl max 0 = 0 := by
  induction l with
  | nil => rfl
  | cons a t ih => simpa using ih

theorem conv2d_zeroConv (inC k s : ℕ) (x : Image) :
    conv2d inC k s zeroConv.w zeroConv.b x = zeroImage := by
  funext c i j
  simp [conv2d, zeroConv, zeroImage]

theorem prelu_zeroImage (a : ℝ) : prelu a zeroImage = zeroImage := by
  funext c i j
  simp [prelu, zeroImage]

theorem rowMax_zero (c bi bj k : ℕ) : rowMax zeroImage c bi bj k = 0 := by
  simpa [rowMax, zeroImage] using foldl_max_zero (List.range k)

theorem maxpool2d_zeroImage (k s : ℕ) : maxpool2d k s zeroImage = zeroImage := by
  funext c i j
  simpa [maxpool2d, rowMax_zero, zeroImage] using foldl_max_zero (List.range k)

theorem pnetBody_zero (x : Image) : pnetBody pnetZeroParams x = zeroImage := by
  simp [pnetBody, pnetZeroParams, conv2d_zeroConv, prelu_zeroImage, maxpool2d_zeroImage]

theorem pnetForward_zero (x : Image) :
    pnetForward pnetZeroParams x = (fun _ _ _ => (1 / 2 : ℝ), zeroImage, zeroImage) := by
  unfold pnetForward
  rw [pnetBody_zero]
  show (fun c i j => sigmoid (conv2d 32 1 1 zeroConv.w zeroConv.b zeroImage c i j),
        conv2d 32 1 1 zeroConv.w zeroConv.b zeroImage,
        conv2d 32 1 1 zeroConv.w zeroConv.b zeroImage) = _
  rw [conv2d_zeroConv 32 1 1 zeroImage]
  have h1 : (fun (c i j : ℕ) => sigmoid (zeroImage c i j)) = fun _ _ _ => (1 / 2 : ℝ) := by
    funext c i j
    simp [zeroImage, sigmoid_zero]
  rw [h1]

theorem pnetForwardFlat_zero (xs : List Image) :
    pnetForwardFlat pnetZeroParams xs =
      (xs.map (fun _ => (1 / 2 : ℝ)),
       xs.map (fun _ => (List.range 4).map (fun _ => (0 : ℝ))),
       xs.map (fun _ => (List.range 10).map (fun _ => (0 : ℝ)))) := by
  simp [pnetForwardFlat, pnetForward_zero, zeroImage]

theorem bce_half_one : bce [(1 / 2 : ℝ)] [(1 : ℝ)] = Real.log 2 := by
  have h : Real.log ((1 : ℝ) / 2) = -Real.log 2 := by
    rw [show (1 : ℝ) / 2 = (2 : ℝ)⁻¹ by norm_num, Real.log_inv]
  simp [bce, h]

theorem getD_map_bool (f : ℤ → Bool) (l : List ℤ) (i : ℕ) (h : i < l.length) :
    (l.map f).getD i false = f (l.getD i 0) := by
  induction l generalizing i with
  | nil => simp at h
  | cons a t ih =>
      cases i with
      | zero => rfl
      | succ n =>
          simp only [List.map_cons, List.getD_cons_succ]
          exact ih n (by simpa using h)

theorem getD_false_of_le (mask : List Bool) (i : ℕ) (h : mask.length ≤ i) :
    mask.getD i false = false := by
  induction mask generalizing i with
  | nil => simp
  | cons b bs ih =>
      cases i with
      | zero => simp at h
      | succ n =>
          simp only [List.getD_cons_succ]
          exact ih n (by simpa using h)

theorem lt_of_getD_true (mask : List Bool) (i : ℕ)
    (h : mask.getD i false = true) : i < mask.length := by
  by_contra hc
  rw [getD_false_of_le mask i (le_of_not_lt hc)] at h
  exact Bool.false_ne_true h

theorem mem_nonzeroIdx (mask : List Bool) (i : ℕ) :
    i ∈ nonzeroIdx mask ↔ i < mask.length ∧ mask.getD i false = true := by
  simp [nonzeroIdx, List.mem_filter, List.mem_range]

theorem maskedSelect_congr {α : Type} [Inhabited α] :
    ∀ (xs ys : List α) (mask : List Bool),
      xs.length = ys.length →
      (∀ i, mask.getD i false = true → xs.getD i default = ys.getD i default) →
      maskedSelect xs mask = maskedSelect ys mask := by
  intro xs
  induction xs with
  | nil =>
      intro ys mask hlen _
      have : ys = [] := by
        cases ys with
        | nil => rfl
        | cons y yt => simp at hlen
      subst this
      rfl
  | cons x xt ih =>
      intro ys mask hlen hagree
      cases ys with
      | nil => simp at hlen
      | cons y yt =>
          cases mask with
          | nil => rfl
          | cons b bs =>
              cases b with
              | false =>
                  show maskedSelect xt bs = maskedSelect yt bs
                  exact ih yt bs (by simpa using hlen)
                    (fun i hi => hagree (i + 1) (by simpa using hi))
              | true =>
                  have hx : x = y := hagree 0 (by simp)
                  show x :: maskedSelect xt bs = y :: maskedSelect yt bs
                  rw [hx]
                  exact congrArg (y :: ·)
                    (ih yt bs (by simpa using hlen)
                      (fun i hi => hagree (i + 1) (by simpa using hi)))

theorem listMapCongr {α β : Type} (l : List α) (f g : α → β)
    (h : ∀ a ∈ l, f a = g a) : l.map f = l.map g := by
  induction l with
  | nil => rfl
  | cons x xt ih =>
      simp only [List.map_cons]
      rw [h x (by simp), ih (fun a ha => h a (by simp [ha]))]

theorem clsMask_true_iff (labels : List ℤ) (i : ℕ) (h : i < labels.length) :
    (clsMask labels).getD i false = true ↔ 0 ≤ labels.getD i 0 := by
  unfold clsMask
  rw [getD_map_bool _ _ _ h]
  simp

theorem boxMask_true_iff (labels : List ℤ) (i : ℕ) (h : i < labels.length) :
    (boxMask labels).getD i false = true ↔ labels.getD i 0 ≠ 0 := by
  unfold boxMask
  rw [getD_map_bool _ _ _ h]
  simp

theorem landMask_true_iff (labels : List ℤ) (i : ℕ) (h : i < labels.length) :
    (landMask labels).getD i false = true ↔ labels.getD i 0 = -2 := by
  unfold landMask
  rw [getD_map_bool _ _ _ h]
  simp

theorem mem_boxIdx_iff (labels : List ℤ) (i : ℕ) :
    i ∈ nonzeroIdx (boxMask labels) ↔ i < labels.length ∧ labels.getD i 0 ≠ 0 := by
  rw [mem_nonzeroIdx]
  have hlen : (boxMask labels).length = labels.length := by simp [boxMask]
  constructor
  · rintro ⟨hlt, htrue⟩
    have hlt' : i < labels.length := hlen ▸ hlt
    exact ⟨hlt', (boxMask_true_iff labels i hlt').mp htrue⟩
  · rintro ⟨hlt, hne⟩
    exact ⟨hlen ▸ hlt, (boxMask_true_iff labels i hlt).mpr hne⟩

theorem mem_landIdx_iff (labels : List ℤ) (i : ℕ) :
    i ∈ nonzeroIdx (landMask labels) ↔ i < labels.length ∧ labels.getD i 0 = -2 := by
  rw [mem_nonzeroIdx]
  have hlen : (landMask labels).length = labels.length := by simp [landMask]
  constructor
  · rintro ⟨hlt, htrue⟩
    have hlt' : i < labels.length := hlen ▸ hlt
    exact ⟨hlt', (landMask_true_iff labels i hlt').mp htrue⟩
  · rintro ⟨hlt, heq⟩
    exact ⟨hlen ▸ hlt, (landMask_true_iff labels i hlt).mpr heq⟩

theorem cls_loss_val_congr (f : ℝ) (gt : List ℤ) (preds preds' : List ℝ)
    (hlen : preds.length = gt.length) (hlen' : preds'.length = gt.length)
    (h : ∀ i, i < gt.length → 0 ≤ gt.getD i 0 → preds.getD i 0 = preds'.getD i 0) :
    cls_loss_val f gt preds = cls_loss_val f gt preds' := by
  unfold cls_loss_val
  rw [maskedSelect_congr preds preds' (clsMask gt) (hlen.trans hlen'.symm) ?_]
  intro i hi
  have hlt : i < (clsMask gt).length := lt_of_getD_true _ _ hi
  have hlt' : i < gt.length := by simpa [clsMask] using hlt
  exact h i hlt' ((clsMask_true_iff gt i hlt').mp hi)

theorem gatherRows_congr (rows rows' : List (List ℝ)) (idx : List ℕ)
    (h : ∀ i ∈ idx, rows.getD i [] = rows'.getD i []) :
    gatherRows rows idx = gatherRows rows' idx :=
  listMapCongr idx _ _ h

theorem get_loss_train_ok (cf bf lf : ℝ)
    (fwd : List Image → List ℝ × List (List ℝ) × List (List ℝ))
    (x : List Image) (gl : List ℤ) (gb glm : List (List ℝ)) :
    get_loss (mkNet cf bf lf true fwd) x gl gb glm
      = Except.ok (cls_term cf gl (fwd x).1 + box_term bf gl gb (fwd x).2.1) := rfl

/-! ### Claim theorems -/

/-- C9: for every network variant, all parameter values and every
real-valued input, the classification score produced by the forward pass
lies in [0, 1]: it is the output of the final sigmoid activation of the
classification head. -/
theorem cls_score_in_unit_interval :
    (∀ (p : PNetParams) (x : Image) (c i j : ℕ),
        0 ≤ (pnetForward p x).1 c i j ∧ (pnetForward p x).1 c i j ≤ 1)
  ∧ (∀ (p : RNetParams) (x : Image) (o : ℕ),
        0 ≤ (rnetForward p x).1 o ∧ (rnetForward p x).1 o ≤ 1)
  ∧ (∀ (p : ONetParams) (x : Image) (o : ℕ),
        0 ≤ (onetForward p x).1 o ∧ (onetForward p x).1 o ≤ 1) := by
  refine ⟨fun p x c i j => ?_, fun p x o => ?_, fun p x o => ?_⟩ <;>
    exact ⟨sigmoid_nonneg _, sigmoid_le_one _⟩

/-- C5: on a network constructed with `is_train = False`, `get_loss`
fails with the `AssertionError` configuration error for every input —
uniformly in the forward pass (`fwd` is arbitrary), so before any
forward computation. -/
theorem eval_mode_get_loss_asserts (cf bf lf : ℝ)
    (fwd : List Image → List ℝ × List (List ℝ) × List (List ℝ))
    (x : List Image) (gl : List ℤ) (gb glm : List (List ℝ)) :
    get_loss (mkNet cf bf lf false fwd) x gl gb glm
      = Except.error PyErr.assertionError := rfl

/-- C5 witness: the error at a concrete eval-mode net and input. -/
theorem eval_mode_get_loss_asserts_witness :
    get_loss (mkNet 1 (1 / 2) (1 / 2) false (pnetForwardFlat pnetZeroParams))
        [zeroImage] [1] [[0, 0, 0, 0]] [[0]]
      = Except.error PyErr.assertionError :=
  eval_mode_get_loss_asserts 1 (1 / 2) (1 / 2)
    (pnetForwardFlat pnetZeroParams) [zeroImage] [1] [[0, 0, 0, 0]] [[0]]

/-- C10: a network constructed with `is_train = False` never creates the
weighting-factor attributes or the three loss sub-objects, so directly
calling `cls_loss`, `box_loss` or `landmark_loss` fails with
`AttributeError` (a missing-attribute error), while `get_loss` — which
checks the mode first — fails with the distinct `AssertionError`. -/
theorem eval_mode_loss_methods_attribute_error (cf bf lf : ℝ)
    (fwd : List Image → List ℝ × List (List ℝ) × List (List ℝ))
    (x : List Image) (gl : List ℤ) (pl : List ℝ)
    (gb po glm plm : List (List ℝ)) :
    (mkNet cf bf lf false fwd).cls_factor = none
  ∧ (mkNet cf bf lf false fwd).box_factor = none
  ∧ (mkNet cf bf lf false fwd).land_factor = none
  ∧ (mkNet cf bf lf false fwd).loss_cls = none
  ∧ (mkNet cf bf lf false fwd).loss_box = none
  ∧ (mkNet cf bf lf false fwd).loss_landmark = none
  ∧ cls_loss (mkNet cf bf lf false fwd) gl pl = Except.error PyErr.attributeError
  ∧ box_loss (mkNet cf bf lf false fwd) gl gb po = Except.error PyErr.attributeError
  ∧ landmark_loss (mkNet cf bf lf false fwd) gl glm plm
      = Except.error PyErr.attributeError
  ∧ get_loss (mkNet cf bf lf false fwd) x gl gb glm
      = Except.error PyErr.assertionError
  ∧ PyErr.attributeError ≠ PyErr.assertionError :=
  ⟨rfl, rfl, rfl, rfl, rfl, rfl, rfl, rfl, rfl, rfl, by decide⟩

/-- C4: on a training-mode network with `x`, `gt_label` and `gt_boxes`
fixed, `get_loss` returns the same value for any two values of the
`gt_landmarks` argument — the landmark loss is not part of the returned
sum and `gt_landmarks` is never read. -/
theorem get_loss_ignores_gt_landmarks (net : NetState) (x : List Image)
    (gl : List ℤ) (gb glm glm' : List (List ℝ)) (h : net.is_train = true) :
    get_loss net x gl gb glm = get_loss net x gl gb glm' := rfl

/-- C4 witness: a concrete training-mode net, a two-sample batch and two
different `gt_landmarks` values. -/
theorem get_loss_ignores_gt_landmarks_witness :
    pnetTrainZero.is_train = true
  ∧ get_loss pnetTrainZero [zeroImage, zeroImage] [1, 1]
        [[0, 0, 0, 0], [0, 0, 0, 0]] [[0], [0]]
      = get_loss pnetTrainZero [zeroImage, zeroImage] [1, 1]
        [[0, 0, 0, 0], [0, 0, 0, 0]] [[1], [1]] :=
  ⟨rfl, get_loss_ignores_gt_landmarks pnetTrainZero [zeroImage, zeroImage] [1, 1]
    [[0, 0, 0, 0], [0, 0, 0, 0]] [[0], [0]] [[1], [1]] rfl⟩

/-- C6: the masked classification loss selects exactly the samples with
label ≥ 0 (conjunct 1); samples with label < 0 never influence it
(conjunct 2: predictions may differ arbitrarily at negative-label
positions); it is the binary cross-entropy of the gathered subset scaled
linearly by the classification factor (conjunct 3); and on the batch
`[1, 0, -2, 1]` the mask selects indices `[0, 1, 3]` (conjunct 4). -/
theorem cls_loss_mask_spec :
    (∀ (labels : List ℤ) (i : ℕ), i < labels.length →
        ((clsMask labels).getD i false = true ↔ 0 ≤ labels.getD i 0))
  ∧ (∀ (net : NetState) (gt : List ℤ) (preds preds' : List ℝ),
        preds.length = gt.length → preds'.length = gt.length →
        (∀ i, i < gt.length → 0 ≤ gt.getD i 0 → preds.getD i 0 = preds'.getD i 0) →
        cls_loss net gt preds = cls_loss net gt preds')
  ∧ (∀ (f : ℝ) (gt : List ℤ) (preds : List ℝ),
        cls_loss_val f gt preds = f * cls_loss_val 1 gt preds)
  ∧ nonzeroIdx (clsMask [1, 0, -2, 1]) = [0, 1, 3] := by
  refine ⟨clsMask_true_iff, ?_, ?_, by decide⟩
  · intro net gt preds preds' hlen hlen' h
    have hval : ∀ f, cls_loss_val f gt preds = cls_loss_val f gt preds' :=
      fun f => cls_loss_val_congr f gt preds preds' hlen hlen' h
    cases hc : net.loss_cls with
    | none =>
        simp only [cls_loss, lookupAttr, hc]
        rfl
    | some u =>
        cases hf : net.cls_factor with
        | none =>
            simp only [cls_loss, lookupAttr, hc, hf]
            rfl
        | some f => simp [cls_loss, lookupAttr, hc, hf, hval f]
  · intro f gt preds
    unfold cls_loss_val
    ring

/-- C6 witness: `cls_loss` at the batch `[1, 0, -2, 1]` with two
prediction lists that differ only at index 2 (the −2 sample). -/
theorem cls_loss_mask_spec_witness :
    ([1 / 2, 1 / 3, 0, 1 / 4] : List ℝ).length = ([1, 0, -2, 1] : List ℤ).length
  ∧ ([1 / 2, 1 / 3, 7, 1 / 4] : List ℝ).length = ([1, 0, -2, 1] : List ℤ).length
  ∧ cls_loss pnetTrainZero [1, 0, -2, 1] [1 / 2, 1 / 3, 0, 1 / 4]
      = cls_loss pnetTrainZero [1, 0, -2, 1] [1 / 2, 1 / 3, 7, 1 / 4] :=
  ⟨rfl, rfl,
    cls_loss_mask_spec.2.1 pnetTrainZero [1, 0, -2, 1]
      [1 / 2, 1 / 3, 0, 1 / 4] [1 / 2, 1 / 3, 7, 1 / 4] rfl rfl
      (by
        intro i hi hl
        have h4 : i < 4 := by simpa using hi
        interval_cases i <;> first | rfl | exact absurd hl (by decide))⟩

/-- C7: the masked box loss selects exactly the samples with label ≠ 0
(conjunct 1); negative samples (label = 0) never influence it
(conjunct 2: ground-truth offset rows may differ arbitrarily at
label-0 positions); it is the mean-squared error of the gathered rows
scaled linearly by the box factor (conjunct 3); and on the batch
`[1, 0, -2, 1]` the chosen indices are `[0, 2, 3]` (conjunct 4). -/
theorem box_loss_mask_spec :
    (∀ (labels : List ℤ) (i : ℕ),
        i ∈ nonzeroIdx (boxMask labels) ↔ i < labels.length ∧ labels.getD i 0 ≠ 0)
  ∧ (∀ (net : NetState) (gt : List ℤ) (gtb gtb' po : List (List ℝ)),
        (∀ i, i < gt.length → gt.getD i 0 ≠ 0 → gtb.getD i [] = gtb'.getD i []) →
        box_loss net gt gtb po = box_loss net gt gtb' po)
  ∧ (∀ (f : ℝ) (gt : List ℤ) (gtb po : List (List ℝ)),
        box_loss_val f gt gtb po = f * box_loss_val 1 gt gtb po)
  ∧ nonzeroIdx (boxMask [1, 0, -2, 1]) = [0, 2, 3] := by
  refine ⟨mem_boxIdx_iff, ?_, ?_, by decide⟩
  · intro net gt gtb gtb' po h
    have hg : gatherRows gtb (nonzeroIdx (boxMask gt))
        = gatherRows gtb' (nonzeroIdx (boxMask gt)) := by
      refine gatherRows_congr _ _ _ (fun i hi => ?_)
      obtain ⟨hlt, hne⟩ := (mem_boxIdx_iff gt i).mp hi
      exact h i hlt hne
    have hval : ∀ f, box_loss_val f gt gtb po = box_loss_val f gt gtb' po := by
      intro f
      unfold box_loss_val
      rw [hg]
    cases hc : net.loss_box with
    | none =>
        simp only [box_loss, lookupAttr, hc]
        rfl
    | some u =>
        cases hf : net.box_factor with
        | none =>
            simp only [box_loss, lookupAttr, hc, hf]
            rfl
        | some f => simp [box_loss, lookupAttr, hc, hf, hval f]
  · intro f gt gtb po
    unfold box_loss_val
    ring

/-- C7 witness: `box_loss` at the batch `[1, 0, -2, 1]` with two
ground-truth offset tensors that differ only at index 1 (the label-0
sample). -/
theorem box_loss_mask_spec_witness :
    box_loss pnetTrainZero [1, 0, -2, 1]
        [[1, 2, 3, 4], [9, 9, 9, 9], [0, 0, 0, 0], [1, 1, 1, 1]]
        [[0, 0, 0, 0], [0, 0, 0, 0], [0, 0, 0, 0], [0, 0, 0, 0]]
      = box_loss pnetTrainZero [1, 0, -2, 1]
        [[1, 2, 3, 4], [5, 5, 5, 5], [0, 0, 0, 0], [1, 1, 1, 1]]
        [[0, 0, 0, 0], [0, 0, 0, 0], [0, 0, 0, 0], [0, 0, 0, 0]] :=
  box_loss_mask_spec.2.1 pnetTrainZero [1, 0, -2, 1] _ _ _
    (by
      intro i hi hl
      have h4 : i < 4 := by simpa using hi
      interval_cases i <;> first | rfl | exact absurd (by decide) hl)

/-- C8: the masked landmark loss selects exactly the samples with label
= −2 (conjunct 1); all other labels never influence it (conjunct 2:
ground-truth landmark rows may differ arbitrarily at positions whose
label is not −2); it is the mean-squared error of the gathered rows
scaled linearly by the landmark factor (conjunct 3); and on the batch
`[1, 0, -2, 1]` the chosen indices are `[2]` (conjunct 4). -/
theorem landmark_loss_mask_spec :
    (∀ (labels : List ℤ) (i : ℕ),
        i ∈ nonzeroIdx (landMask labels) ↔ i < labels.length ∧ labels.getD i 0 = -2)
  ∧ (∀ (net : NetState) (gt : List ℤ) (gtl gtl' pl : List (List ℝ)),
        (∀ i, i < gt.length → gt.getD i 0 = -2 → gtl.getD i [] = gtl'.getD i []) →
        landmark_loss net gt gtl pl = landmark_loss net gt gtl' pl)
  ∧ (∀ (f : ℝ) (gt : List ℤ) (gtl pl : List (List ℝ)),
        landmark_loss_val f gt gtl pl = f * landmark_loss_val 1 gt gtl pl)
  ∧ nonzeroIdx (landMask [1, 0, -2, 1]) = [2] := by
  refine ⟨mem_landIdx_iff, ?_, ?_, by decide⟩
  · intro net gt gtl gtl' pl h
    have hg : gatherRows gtl (nonzeroIdx (landMask gt))
        = gatherRows gtl' (nonzeroIdx (landMask gt)) := by
      refine gatherRows_congr _ _ _ (fun i hi => ?_)
      obtain ⟨hlt, heq⟩ := (mem_landIdx_iff gt i).mp hi
      exact h i hlt heq
    have hval : ∀ f, landmark_loss_val f gt gtl pl = landmark_loss_val f gt gtl' pl := by
      intro f
      unfold landmark_loss_val
      rw [hg]
    cases hc : net.loss_landmark with
    | none =>
        simp only [landmark_loss, lookupAttr, hc]
        rfl
    | some u =>
        cases hf : net.land_factor with
        | none =>
            simp only [landmark_loss, lookupAttr, hc, hf]
            rfl
        | some f => simp [landmark_loss, lookupAttr, hc, hf, hval f]
  · intro f gt gtl pl
    unfold landmark_loss_val
    ring

/-- C8 witness: `landmark_loss` at the batch `[1, 0, -2, 1]` with two
ground-truth landmark tensors that agree only at index 2 (the −2
sample). -/
theorem landmark_loss_mask_spec_witness :
    landmark_loss pnetTrainZero [1, 0, -2, 1]
        [[1], [2], [3], [4]] [[0], [0], [0], [0]]
      = landmark_loss pnetTrainZero [1, 0, -2, 1]
        [[5], [6], [3], [7]] [[0], [0], [0], [0]] :=
  landmark_loss_mask_spec.2.1 pnetTrainZero [1, 0, -2, 1] _ _ _
    (by
      intro i hi hl
      have h4 : i < 4 := by simpa using hi
      interval_cases i <;> first | rfl | exact absurd hl (by decide))

/-- C3 counterexample: the first layer of a constructed `ONet` is a
convolution whose weight has been redrawn by `weights_init` twice —
`ONet._init_net` ends with `self.apply(weights_init)` and
`_Net.__init__` applies it again — so the initializer is not applied
exactly once for every variant. -/
theorem onet_weights_init_twice_counterexample :
    ((constructLayers Variant.onet).getD 0 (freshLayer LayerKind.prelu)).kind
        = LayerKind.conv2d
  ∧ ((constructLayers Variant.onet).getD 0 (freshLayer LayerKind.prelu)).xavierInits = 2
  ∧ (2 : ℕ) ≠ 1 := by decide

/-- C3 corrected: after construction, every convolutional or
fully-connected layer of every variant has its bias set to the constant
0.1 and its weight drawn by Xavier-uniform initialization at least once;
the initializer runs exactly once on `PNet` and `RNet` layers but twice
on `ONet` layers. -/
theorem weights_init_applied :
    ∀ v : Variant, ∀ l ∈ constructLayers v,
      (l.kind = LayerKind.conv2d ∨ l.kind = LayerKind.linear) →
        l.bias = some (mkRat 1 10) ∧ 1 ≤ l.xavierInits
          ∧ l.xavierInits = (if v = Variant.onet then 2 else 1) := by
  decide

/-- C3 witness: the first (convolution) layer of the constructed `ONet`. -/
theorem weights_init_applied_witness :
    (⟨LayerKind.conv2d, some (mkRat 1 10), 2⟩ : LayerState) ∈ constructLayers Variant.onet
  ∧ ((⟨LayerKind.conv2d, some (mkRat 1 10), 2⟩ : LayerState).bias = some (mkRat 1 10)
      ∧ 1 ≤ (⟨LayerKind.conv2d, some (mkRat 1 10), 2⟩ : LayerState).xavierInits
      ∧ (⟨LayerKind.conv2d, some (mkRat 1 10), 2⟩ : LayerState).xavierInits
          = (if Variant.onet = Variant.onet then 2 else 1)) :=
  ⟨by decide,
    weights_init_applied Variant.onet ⟨LayerKind.conv2d, some (mkRat 1 10), 2⟩
      (by decide) (Or.inl rfl)⟩

/-- C2 corrected: a sample whose label is the sentinel −2 is excluded
from the classification mask, but it is selected by the box-loss mask
(which keeps every label ≠ 0) as well as by the landmark mask — so it
contributes to the box-regression loss, not only to the landmark loss. -/
theorem neg2_label_mask_membership (labels : List ℤ) (i : ℕ)
    (hi : i < labels.length) (hl : labels.getD i 0 = -2) :
    (clsMask labels).getD i false = false
  ∧ i ∈ nonzeroIdx (boxMask labels)
  ∧ i ∈ nonzeroIdx (landMask labels) := by
  refine ⟨?_, ?_, ?_⟩
  · cases hb : (clsMask labels).getD i false with
    | false => rfl
    | true =>
        exact absurd ((clsMask_true_iff labels i hi).mp hb) (by rw [hl]; decide)
  · exact (mem_boxIdx_iff labels i).mpr ⟨hi, by rw [hl]; decide⟩
  · exact (mem_landIdx_iff labels i).mpr ⟨hi, hl⟩

/-- C2 witness: index 2 of the batch `[1, 0, -2, 1]`. -/
theorem neg2_label_mask_membership_witness :
    (2 < ([1, 0, -2, 1] : List ℤ).length ∧ ([1, 0, -2, 1] : List ℤ).getD 2 0 = -2)
  ∧ ((clsMask [1, 0, -2, 1]).getD 2 false = false
      ∧ 2 ∈ nonzeroIdx (boxMask [1, 0, -2, 1])
      ∧ 2 ∈ nonzeroIdx (landMask [1, 0, -2, 1])) :=
  ⟨⟨by decide, by decide⟩,
    neg2_label_mask_membership [1, 0, -2, 1] 2 (by decide) (by decide)⟩

theorem range4_zero : (List.range 4).map (fun _ => (0 : ℝ)) = [0, 0, 0, 0] := by
  simp [List.range_succ]

theorem bce_half_one_pair : bce [(1 / 2 : ℝ), 1 / 2] [(1 : ℝ), 1] = Real.log 2 := by
  have h : Real.log ((1 : ℝ) / 2) = -Real.log 2 := by
    rw [show (1 : ℝ) / 2 = (2 : ℝ)⁻¹ by norm_num, Real.log_inv]
  simp [bce, h]

theorem get_loss_pnetZero_ones (c : ℝ) :
    get_loss (mkNet c (1 / 2) (1 / 2) true (pnetForwardFlat pnetZeroParams))
        [zeroImage, zeroImage] [1, 1] [[0, 0, 0, 0], [0, 0, 0, 0]] [[0], [0]]
      = Except.ok (Real.log 2 * c * c) := by
  have hcm : clsMask [1, 1] = [true, true] := by decide
  have hbm : nonzeroIdx (boxMask [1, 1]) = [0, 1] := by decide
  rw [get_loss_train_ok, pnetForwardFlat_zero]
  simp only [List.map_cons, List.map_nil]
  have hcls : cls_term c [1, 1] [1 / 2, 1 / 2] = Real.log 2 * c * c := by
    unfold cls_term cls_loss_val
    rw [hcm]
    rw [show maskedSelect [(1 : ℝ) / 2, 1 / 2] [true, true] = [1 / 2, 1 / 2] from rfl]
    rw [show (maskedSelect [(1 : ℤ), 1] [true, true]).map (fun z => (z : ℝ)) = [1, 1] by
      simp [maskedSelect]]
    rw [bce_half_one_pair]
  have hbox : box_term (1 / 2) [1, 1] [[0, 0, 0, 0], [0, 0, 0, 0]]
      [(List.range 4).map (fun _ => (0 : ℝ)), (List.range 4).map (fun _ => (0 : ℝ))] = 0 := by
    simp [box_term, box_loss_val, hbm, gatherRows, mse, sqDiffRow, range4_zero]
  rw [hcls, hbox, add_zero]

theorem get_loss_pnetZero_pair (gb glm : List (List ℝ)) :
    get_loss pnetTrainZero [zeroImage, zeroImage] [1, -2] gb glm
      = Except.ok (Real.log 2 + box_term (1 / 2) [1, -2] gb
          [(List.range 4).map (fun _ => (0 : ℝ)), (List.range 4).map (fun _ => (0 : ℝ))]) := by
  have hcm : clsMask [1, -2] = [true, false] := by decide
  unfold pnetTrainZero
  rw [get_loss_train_ok, pnetForwardFlat_zero]
  simp only [List.map_cons, List.map_nil]
  have hcls : cls_term 1 [1, -2] [1 / 2, 1 / 2] = Real.log 2 := by
    unfold cls_term cls_loss_val
    rw [hcm]
    rw [show maskedSelect [(1 : ℝ) / 2, 1 / 2] [true, false] = [1 / 2] from rfl]
    rw [show (maskedSelect [(1 : ℤ), -2] [true, false]).map (fun z => (z : ℝ)) = [1] by
      simp [maskedSelect]]
    rw [bce_half_one]
    ring
  rw [hcls]

theorem pair_box_same : box_term (1 / 2) [1, -2] [[0, 0, 0, 0], [0, 0, 0, 0]]
    [(List.range 4).map (fun _ => (0 : ℝ)), (List.range 4).map (fun _ => (0 : ℝ))] = 0 := by
  have hbm : nonzeroIdx (boxMask [1, -2]) = [0, 1] := by decide
  simp [box_term, box_loss_val, hbm, gatherRows, mse, sqDiffRow, range4_zero]

theorem pair_box_diff : box_term (1 / 2) [1, -2] [[0, 0, 0, 0], [4, 0, 0, 0]]
    [(List.range 4).map (fun _ => (0 : ℝ)), (List.range 4).map (fun _ => (0 : ℝ))] = 1 / 2 := by
  have hbm : nonzeroIdx (boxMask [1, -2]) = [0, 1] := by decide
  simp [box_term, box_loss_val, hbm, gatherRows, mse, sqDiffRow, range4_zero]
  norm_num

/-- C1 counterexample: a concrete training-mode net (`PNet`'s loss state
with all-zero parameters) on a batch of two `12 × 12` zero images with
labels `[1, 1]` and zero box targets — a batch of two positive samples,
so every tensor keeps its batch dimension through the squeezes and the
masked gathers of the source. With `cls_factor = 0, 1, 2` the scalar
returned by `get_loss` is `0`, `log 2`, `4 log 2`: doubling `cls_factor`
from 1 to 2 quadruples — not doubles — the classification contribution,
because the factor is multiplied once inside the `cls_loss` method and
once more in `get_loss`. -/
theorem cls_factor_doubling_counterexample :
    get_loss (mkNet 2 (1 / 2) (1 / 2) true (pnetForwardFlat pnetZeroParams))
        [zeroImage, zeroImage] [1, 1] [[0, 0, 0, 0], [0, 0, 0, 0]] [[0], [0]]
      = Except.ok (4 * Real.log 2)
  ∧ get_loss (mkNet 1 (1 / 2) (1 / 2) true (pnetForwardFlat pnetZeroParams))
        [zeroImage, zeroImage] [1, 1] [[0, 0, 0, 0], [0, 0, 0, 0]] [[0], [0]]
      = Except.ok (Real.log 2)
  ∧ get_loss (mkNet 0 (1 / 2) (1 / 2) true (pnetForwardFlat pnetZeroParams))
        [zeroImage, zeroImage] [1, 1] [[0, 0, 0, 0], [0, 0, 0, 0]] [[0], [0]]
      = Except.ok 0
  ∧ 4 * Real.log 2 - 0 ≠ 2 * (Real.log 2 - 0) := by
  have hlog : 0 < Real.log 2 := Real.log_pos (by norm_num)
  refine ⟨?_, ?_, ?_, ?_⟩
  · rw [get_loss_pnetZero_ones 2]
    exact congrArg Except.ok (by ring)
  · rw [get_loss_pnetZero_ones 1]
    exact congrArg Except.ok (by ring)
  · rw [get_loss_pnetZero_ones 0]
    exact congrArg Except.ok (by ring)
  · intro h
    linarith

/-- C1 corrected: on every training-mode network the scalar returned by
`get_loss` is `cls_term + box_term`, where the classification term
carries `cls_factor` squared (once from the `cls_loss` method, once from
`get_loss` itself): doubling `cls_factor` multiplies the classification
term's contribution by 4, all else fixed. -/
theorem get_loss_cls_factor_quadratic (cf bf lf : ℝ)
    (fwd : List Image → List ℝ × List (List ℝ) × List (List ℝ))
    (x : List Image) (gl : List ℤ) (gb glm : List (List ℝ)) :
    get_loss (mkNet cf bf lf true fwd) x gl gb glm
      = Except.ok (cls_term cf gl (fwd x).1 + box_term bf gl gb (fwd x).2.1)
  ∧ cls_term (2 * cf) gl (fwd x).1 = 4 * cls_term cf gl (fwd x).1 := by
  refine ⟨get_loss_train_ok cf bf lf fwd x gl gb glm, ?_⟩
  unfold cls_term cls_loss_val
  ring

/-- C2 counterexample: batch `[1, -2]` on a concrete training-mode net.
The two ground-truth box tensors agree on the label-1 sample (row 0) and
differ only on the row of the label-−2 sample, yet `get_loss` returns
different scalars (`log 2` versus `log 2 + 1/2`): the −2 sample does
contribute to the box-regression loss. -/
theorem neg2_box_influence_counterexample :
    get_loss pnetTrainZero [zeroImage, zeroImage] [1, -2]
        [[0, 0, 0, 0], [0, 0, 0, 0]] [[0], [0]] = Except.ok (Real.log 2)
  ∧ get_loss pnetTrainZero [zeroImage, zeroImage] [1, -2]
        [[0, 0, 0, 0], [4, 0, 0, 0]] [[0], [0]] = Except.ok (Real.log 2 + 1 / 2)
  ∧ Real.log 2 ≠ Real.log 2 + 1 / 2
  ∧ [[(0 : ℝ), 0, 0, 0], [0, 0, 0, 0]].getD 0 []
      = [[(0 : ℝ), 0, 0, 0], [4, 0, 0, 0]].getD 0 []
  ∧ ([1, -2] : List ℤ).getD 1 0 = -2 := by
  refine ⟨?_, ?_, ?_, rfl, by decide⟩
  · rw [get_loss_pnetZero_pair, pair_box_same, add_zero]
  · rw [get_loss_pnetZero_pair, pair_box_diff]
  · intro h
    linarith

end MTCNN
